import Mathlib

set_option maxHeartbeats 1000000

/-!
Verification of the fetch-and-normalize core of the plaintext-sports CLI.

The development shallowly embeds the relevant Rust code:
pure string/number helpers from src/utils.rs and src/types.rs become Lean
functions on Nat / Rat / List Char; the JSON normalizers and the
endpoint-fallback resolver from src/mlb.rs become Lean functions over an
explicit Json value type, with the network responses (already-fetched
candidate results) passed in as arguments.  Rust f32 arithmetic is
modelled exactly with Rat; machine integers are Nat with explicit
reductions modulo 2 ^ 32 or 2 ^ 64 where the code casts.
-/

/-- Decidable equality for results, so that witnesses can be checked by
evaluation. -/
instance {ε α : Type} [DecidableEq ε] [DecidableEq α] : DecidableEq (Except ε α) := fun a b =>
  match a, b with
  | .ok x, .ok y =>
    if h : x = y then .isTrue (by rw [h])
    else .isFalse (fun hc => h (by injection hc))
  | .error x, .error y =>
    if h : x = y then .isTrue (by rw [h])
    else .isFalse (fun hc => h (by injection hc))
  | .ok _, .error _ => .isFalse (fun hc => Except.noConfusion hc)
  | .error _, .ok _ => .isFalse (fun hc => Except.noConfusion hc)

/-! ### Decimal digit strings

Machinery shared by the embeddings of Rust's integer formatting
(the Display impls, format strings) and integer parsing
(str::parse::<u32>, and the integer fragment of str::parse::<f32>).
Strings are modelled as their character lists.
-/

/-- ASCII digit character for a value below ten. -/
def digitChar (d : Nat) : Char := Char.ofNat (48 + d)

/-- Numeric value of an ASCII digit character, none for other characters. -/
def digitVal (c : Char) : Option Nat :=
  if 48 ≤ c.toNat ∧ c.toNat ≤ 57 then some (c.toNat - 48) else none

/-- Little-endian decimal digits of a natural number; fuel-based so that it
reduces definitionally (the fuel argument strictly drops). -/
def natDigitsAux : Nat → Nat → List Char
  | 0, _ => []
  | fuel + 1, n =>
    if n < 10 then [digitChar n]
    else digitChar (n % 10) :: natDigitsAux fuel (n / 10)

/-- Big-endian decimal digits of a natural number, as Rust's integer
Display would print them. -/
def natDigits (n : Nat) : List Char := (natDigitsAux (n + 1) n).reverse

/-- Decimal rendering of a natural number. -/
def natToString (n : Nat) : String := String.mk (natDigits n)

/-- Accumulating decimal parser over a character list; fails on the first
non-digit character. -/
def parseDigitsAux : List Char → Nat → Option Nat
  | [], acc => some acc
  | c :: cs, acc =>
    match digitVal c with
    | some d => parseDigitsAux cs (acc * 10 + d)
    | none => none

/-- Decimal parser: a nonempty all-digit character list to its value. -/
def parseDigits : List Char → Option Nat
  | [] => none
  | c :: cs => parseDigitsAux (c :: cs) 0

/-- Drops a single leading plus sign, as Rust's unsigned integer parser
accepts. -/
def stripPlus : List Char → List Char
  | [] => []
  | c :: rest => if c = '+' then rest else c :: rest

/-- Model of Rust str::parse::<u32>: optional leading plus sign, then a
nonempty digit string whose value fits in 32 bits. -/
def parseU32 (cs : List Char) : Option Nat :=
  (parseDigits (stripPlus cs)).bind (fun v => if v < 2 ^ 32 then some v else none)

/-- Model of Rust s.parse::<f32>().unwrap_or(0.0) for the dot-free strings
it is applied to in parse_innings_pitched, valued exactly in Rat: an
optional sign followed by a digit string.  Exponent, infinity and NaN
spellings are not modelled and fall to the zero default. -/
def parseF32orZero (cs : List Char) : ℚ :=
  match cs with
  | [] => ((parseDigits [] ).getD 0 : Nat)
  | c :: rest =>
    if c = '+' then ((parseDigits rest).getD 0 : Nat)
    else if c = '-' then -(((parseDigits rest).getD 0 : Nat) : ℚ)
    else ((parseDigits (c :: rest)).getD 0 : Nat)

/-- Model of Rust str::split on the dot character: the list of delimited
(possibly empty) chunks, in order.  An input without the delimiter yields
the single chunk equal to the whole input. -/
def splitDots : List Char → List (List Char)
  | [] => [[]]
  | c :: rest =>
    if c = '.' then [] :: splitDots rest
    else
      match splitDots rest with
      | [] => [[c]]
      | p :: ps => (c :: p) :: ps

/-! ### src/types.rs: InningsPitched -/

/-- Innings pitched: whole innings plus outs recorded in the current
inning (the source calls the second field `partial`, a reserved word
here). -/
structure InningsPitched where
  complete : Nat
  part : Nat
deriving DecidableEq, Repr

/-- Embedding of InningsPitched::new (src/types.rs): split on the dot;
one chunk parses as the whole-innings count, two chunks parse as
(complete, partial) with the partial count required below three; any
other shape is an error. -/
def InningsPitched.new (innings : String) : Except String InningsPitched :=
  match splitDots innings.data with
  | [p0] =>
    match parseU32 p0 with
    | some complete => .ok ⟨complete, 0⟩
    | none => .error ("Invalid innings format: " ++ innings)
  | [p0, p1] =>
    match parseU32 p0 with
    | none => .error ("Invalid innings format: " ++ innings)
    | some complete =>
      match parseU32 p1 with
      | none => .error ("Invalid innings format: " ++ innings)
      | some part =>
        if 3 ≤ part then
          .error ("Invalid partial innings: " ++ natToString part ++ ". Must be less than 3")
        else .ok ⟨complete, part⟩
  | _ => .error ("Invalid innings format: " ++ innings)

/-- Embedding of InningsPitched::as_float, exactly in Rat. -/
def InningsPitched.asFloat (ip : InningsPitched) : ℚ :=
  (ip.complete : ℚ) + (ip.part : ℚ) / 3

/-- Embedding of the Display impl for InningsPitched: a zero partial
count prints with an explicit ".0" suffix. -/
def InningsPitched.display (ip : InningsPitched) : String :=
  if ip.part = 0 then String.mk (natDigits ip.complete ++ ['.', '0'])
  else String.mk (natDigits ip.complete ++ '.' :: natDigits ip.part)

/-- Embedding of utils::parse_innings_pitched (src/utils.rs): total; a
two-chunk split is read as whole innings plus thirds, anything else is
parsed wholesale with zero as the fallback. -/
def parse_innings_pitched (ip : String) : ℚ :=
  match splitDots ip.data with
  | [p0, p1] => parseF32orZero p0 + parseF32orZero p1 / 3
  | _ => parseF32orZero ip.data

/-! ### src/types.rs: Average, and src/utils.rs helpers -/

/-- A batting average or similar statistic (src/types.rs), valued in Rat. -/
structure Average where
  val : ℚ
deriving DecidableEq, Repr

/-- Embedding of Average::new: rejects values outside the closed unit
interval.  The source interpolates the offending value into the message;
the numeric rendering is immaterial here and omitted. -/
def Average.new (value : ℚ) : Except String Average :=
  if value < 0 ∨ 1 < value then
    .error "Invalid average value. Must be between 0 and 1"
  else .ok ⟨value⟩

/-- Round half away from zero, then clamp at zero, matching
f32::round followed by an `as u32` cast on the nonnegative values the
code produces. -/
def roundHalfAway (v : ℚ) : Nat := (⌊v + 1 / 2⌋).toNat

/-- Digits of a number zero-padded on the left to width three, as the
format specifier {:03} prints. -/
def format03 (n : Nat) : List Char :=
  List.replicate (3 - (natDigits n).length) '0' ++ natDigits n

/-- Embedding of Average::format: a dot followed by the rounded
thousandths, zero-padded to at least three digits. -/
def Average.format (a : Average) : String :=
  String.mk ('.' :: format03 (roundHalfAway (a.val * 1000)))

/-- Embedding of utils::calculate_average: guarded division, with
Average::new's range check folded in by Result::ok.  The u32-to-f32
casts and the f32 division are valued exactly in Rat; this model
coincides with the program's f32 arithmetic on the guard only while
both operands convert to f32 exactly, i.e. below 2 ^ 24 (at
hits = 2 ^ 24 + 1, at_bats = 2 ^ 24 both casts round to 2 ^ 24 and the
f32 ratio is exactly one, which the exact ratio is not), so the guard
theorem below quantifies only over that range. -/
def calculate_average (hits at_bats : Nat) : Option Average :=
  if 0 < at_bats then (Average.new ((hits : ℚ) / (at_bats : ℚ))).toOption
  else none

/-- Embedding of utils::determine_winner: index zero designates the away
side, index one the home side; ties and absent scores designate no one. -/
def determine_winner (away_score home_score : Option Nat) : Option Nat :=
  match away_score, home_score with
  | some away, some home =>
    if home < away then some 0
    else if away < home then some 1
    else none
  | _, _ => none

/-! ### A serde_json value model

Enough of serde_json::Value for the normalizers in src/mlb.rs: `get` is
object field lookup, `idx` is the bracket Index operator (null on any
miss), and the as-accessors mirror as_u64 / as_str / as_bool / as_array.
Numbers are valued exactly in Rat.
-/

/-- A parsed JSON document. -/
inductive Json where
  | null
  | bool (b : Bool)
  | num (q : ℚ)
  | str (s : String)
  | arr (elems : List Json)
  | obj (fields : List (String × Json))

/-- serde_json::Value::get for string keys: a field of an object, none
for absent fields and for non-objects. -/
def Json.get (j : Json) (key : String) : Option Json :=
  match j with
  | .obj fields => fields.lookup key
  | _ => none

/-- The bracket Index operator on serde_json::Value: like `get` but
yielding null instead of none. -/
def Json.idx (j : Json) (key : String) : Json := (j.get key).getD .null

/-- serde_json::Value::as_u64: an integer-valued number fitting in
64 unsigned bits. -/
def Json.asU64 : Json → Option Nat
  | .num q => if q.den = 1 ∧ 0 ≤ q.num ∧ q.num < 2 ^ 64 then some q.num.toNat else none
  | _ => none

/-- serde_json::Value::as_str. -/
def Json.asStr : Json → Option String
  | .str s => some s
  | _ => none

/-- serde_json::Value::as_bool. -/
def Json.asBool : Json → Option Bool
  | .bool b => some b
  | _ => none

/-- serde_json::Value::as_array. -/
def Json.asArr : Json → Option (List Json)
  | .arr elems => some elems
  | _ => none

/-! ### src/mlb.rs: the canonical domain model -/

/-- Canonical game state enumeration (src/mlb.rs). -/
inductive GameState where
  | Scheduled
  | Live
  | Final
  | Postponed
  | Cancelled
  | Suspended
  | Unknown
deriving DecidableEq, Repr

/-- Embedding of the abstractGameState-to-GameState mapping that
get_game, get_todays_games and try_feed_live_endpoint all inline
(src/mlb.rs lines 620-628). -/
def map_status (s : String) : GameState :=
  match s with
  | "Final" => .Final
  | "Live" => .Live
  | "Preview" => .Scheduled
  | "Postponed" => .Postponed
  | "Cancelled" => .Cancelled
  | "Suspended" => .Suspended
  | _ => .Unknown

/-- Team record (src/mlb.rs): only id and name are mandatory. -/
structure Team where
  id : Nat
  name : String
  team_code : Option String
  file_code : Option String
  team_name : Option String
  location_name : Option String
  short_name : Option String
  abbreviation : Option String
  franchise_name : Option String
  club_name : Option String
  first_year_of_play : Option String
  active : Option Bool
  venue : Option String
  league : Option String
  division : Option String
deriving DecidableEq, Repr

/-- One side of a game: optional score, team, optional winner flag. -/
structure GameTeam where
  score : Option Nat
  team : Team
  is_winner : Option Bool
deriving DecidableEq, Repr

/-- Team-level batting line (src/mlb.rs). -/
structure BattingStats where
  runs : Nat
  hits : Nat
  home_runs : Nat
  rbi : Nat
  stolen_bases : Nat
  avg : String
  obp : String
  slg : String
  ops : String
deriving DecidableEq, Repr

/-- Team-level pitching line (src/mlb.rs). -/
structure PitchingStats where
  innings_pitched : String
  hits_allowed : Nat
  runs_allowed : Nat
  earned_runs : Nat
  walks : Nat
  strikeouts : Nat
  home_runs_allowed : Nat
  era : String
deriving DecidableEq, Repr

/-- Per-player batting line (src/mlb.rs). -/
structure PlayerBattingStats where
  name : String
  hits : Nat
  at_bats : Nat
  home_runs : Nat
  rbi : Nat
  runs : Nat
  doubles : Nat
  triples : Nat
  stolen_bases : Nat
  walks : Nat
  strikeouts : Nat
  avg : Option String
  obp : Option String
  slg : Option String
deriving DecidableEq, Repr

/-- Per-player pitching line (src/mlb.rs). -/
structure PlayerPitchingStats where
  name : String
  innings_pitched : String
  strikeouts : Nat
  earned_runs : Nat
  hits_allowed : Nat
  runs_allowed : Nat
  walks : Nat
  home_runs_allowed : Nat
  era : Option String
deriving DecidableEq, Repr

/-- Aggregate and per-player statistics of one team in one game. -/
structure TeamStats where
  team_name : String
  batting : BattingStats
  pitching : PitchingStats
  batters : List PlayerBattingStats
  pitchers : List PlayerPitchingStats
deriving DecidableEq, Repr

/-- Runs scored by each side in one inning. -/
structure InningData where
  inning : Nat
  home : Option Nat
  away : Option Nat
deriving DecidableEq, Repr

/-- Inning-by-inning breakdown of one game. -/
structure GameInnings where
  game_pk : Nat
  game_date : String
  status : GameState
  home_team : Team
  away_team : Team
  innings : List InningData
  home_runs : Option Nat
  away_runs : Option Nat
deriving DecidableEq, Repr

/-! ### src/mlb.rs: endpoint normalizers -/

/-- Embedding of MlbApi::extract_game_team (src/mlb.rs lines 647-673):
the team subobject is required, everything inside it is defensively
defaulted; `as u32` casts reduce modulo 2 ^ 32. -/
def extract_game_team (data : Json) (team_type : String) : Except String GameTeam :=
  match data.get team_type with
  | none => .error ("Missing " ++ team_type ++ " team data")
  | some team_data =>
    .ok
      { score := (team_data.idx "runs").asU64.map (fun s => s % 2 ^ 32)
        team :=
          { id := (team_data.idx "id").asU64.getD 0 % 2 ^ 32
            name := (team_data.idx "name").asStr.getD ""
            team_code := (team_data.idx "teamCode").asStr
            file_code := (team_data.idx "fileCode").asStr
            team_name := (team_data.idx "teamName").asStr
            location_name := (team_data.idx "locationName").asStr
            short_name := (team_data.idx "shortName").asStr
            abbreviation := (team_data.idx "abbreviation").asStr
            franchise_name := none
            club_name := none
            first_year_of_play := none
            active := none
            venue := none
            league := none
            division := none }
        is_winner := (team_data.idx "isWinner").asBool }

/-- One iteration of the batter loop in MlbApi::extract_team_stats: a
numeric roster entry is looked up in the players map and kept only when
a batting stats object is present. -/
def extract_batter (team_data : Json) (batter : Json) : Option PlayerBattingStats :=
  match batter.asU64 with
  | none => none
  | some batter_id =>
    match team_data.get "players" with
    | none => none
    | some players =>
      match players.get ("ID" ++ natToString batter_id) with
      | none => none
      | some player_obj =>
        let name :=
          (((player_obj.get "person").bind (fun p => p.get "fullName")).bind
            Json.asStr).getD "Unknown Player"
        match (player_obj.get "stats").bind (fun s => s.get "batting") with
        | none => none
        | some stats_obj =>
          some
            { name := name
              hits := ((stats_obj.get "hits").bind Json.asU64).getD 0 % 2 ^ 32
              at_bats := ((stats_obj.get "atBats").bind Json.asU64).getD 0 % 2 ^ 32
              home_runs := ((stats_obj.get "homeRuns").bind Json.asU64).getD 0 % 2 ^ 32
              rbi := ((stats_obj.get "rbi").bind Json.asU64).getD 0 % 2 ^ 32
              runs := ((stats_obj.get "runs").bind Json.asU64).getD 0 % 2 ^ 32
              doubles := ((stats_obj.get "doubles").bind Json.asU64).getD 0 % 2 ^ 32
              triples := ((stats_obj.get "triples").bind Json.asU64).getD 0 % 2 ^ 32
              stolen_bases := ((stats_obj.get "stolenBases").bind Json.asU64).getD 0 % 2 ^ 32
              walks := ((stats_obj.get "baseOnBalls").bind Json.asU64).getD 0 % 2 ^ 32
              strikeouts := ((stats_obj.get "strikeOuts").bind Json.asU64).getD 0 % 2 ^ 32
              avg := (stats_obj.get "avg").bind Json.asStr
              obp := (stats_obj.get "obp").bind Json.asStr
              slg := (stats_obj.get "slg").bind Json.asStr }

/-- One iteration of the pitcher loop in MlbApi::extract_team_stats. -/
def extract_pitcher (team_data : Json) (pitcher : Json) : Option PlayerPitchingStats :=
  match pitcher.asU64 with
  | none => none
  | some pitcher_id =>
    match team_data.get "players" with
    | none => none
    | some players =>
      match players.get ("ID" ++ natToString pitcher_id) with
      | none => none
      | some player_obj =>
        let name :=
          (((player_obj.get "person").bind (fun p => p.get "fullName")).bind
            Json.asStr).getD "Unknown Player"
        match (player_obj.get "stats").bind (fun s => s.get "pitching") with
        | none => none
        | some stats_obj =>
          some
            { name := name
              innings_pitched := ((stats_obj.get "inningsPitched").bind Json.asStr).getD "0"
              strikeouts := ((stats_obj.get "strikeOuts").bind Json.asU64).getD 0 % 2 ^ 32
              earned_runs := ((stats_obj.get "earnedRuns").bind Json.asU64).getD 0 % 2 ^ 32
              hits_allowed := ((stats_obj.get "hits").bind Json.asU64).getD 0 % 2 ^ 32
              runs_allowed := ((stats_obj.get "runs").bind Json.asU64).getD 0 % 2 ^ 32
              walks := ((stats_obj.get "baseOnBalls").bind Json.asU64).getD 0 % 2 ^ 32
              home_runs_allowed := ((stats_obj.get "homeRuns").bind Json.asU64).getD 0 % 2 ^ 32
              era := (stats_obj.get "era").bind Json.asStr }

/-- Embedding of MlbApi::extract_team_stats (src/mlb.rs lines 1191-1338):
the team name is the one required field; the aggregate batting and
pitching lines fall back to documented defaults; the per-player lists
keep only roster entries that resolve to a player with stats. -/
def extract_team_stats (team_data : Json) : Except String TeamStats :=
  match ((team_data.get "team").bind (fun t => t.get "name")).bind Json.asStr with
  | none => .error "Missing team name"
  | some team_name =>
    let batting : BattingStats :=
      { runs := (((team_data.idx "teamStats").idx "batting").idx "runs").asU64.getD 0 % 2 ^ 32
        hits := (((team_data.idx "teamStats").idx "batting").idx "hits").asU64.getD 0 % 2 ^ 32
        home_runs :=
          (((team_data.idx "teamStats").idx "batting").idx "homeRuns").asU64.getD 0 % 2 ^ 32
        rbi := (((team_data.idx "teamStats").idx "batting").idx "rbi").asU64.getD 0 % 2 ^ 32
        stolen_bases :=
          (((team_data.idx "teamStats").idx "batting").idx "stolenBases").asU64.getD 0 % 2 ^ 32
        avg := (((team_data.idx "teamStats").idx "batting").idx "avg").asStr.getD ".000"
        obp := (((team_data.idx "teamStats").idx "batting").idx "obp").asStr.getD ".000"
        slg := (((team_data.idx "teamStats").idx "batting").idx "slg").asStr.getD ".000"
        ops := (((team_data.idx "teamStats").idx "batting").idx "ops").asStr.getD ".000" }
    let pitching : PitchingStats :=
      { innings_pitched :=
          (((team_data.idx "teamStats").idx "pitching").idx "inningsPitched").asStr.getD "0"
        hits_allowed :=
          (((team_data.idx "teamStats").idx "pitching").idx "hits").asU64.getD 0 % 2 ^ 32
        runs_allowed :=
          (((team_data.idx "teamStats").idx "pitching").idx "runs").asU64.getD 0 % 2 ^ 32
        earned_runs :=
          (((team_data.idx "teamStats").idx "pitching").idx "earnedRuns").asU64.getD 0 % 2 ^ 32
        walks :=
          (((team_data.idx "teamStats").idx "pitching").idx "baseOnBalls").asU64.getD 0 % 2 ^ 32
        strikeouts :=
          (((team_data.idx "teamStats").idx "pitching").idx "strikeOuts").asU64.getD 0 % 2 ^ 32
        home_runs_allowed :=
          (((team_data.idx "teamStats").idx "pitching").idx "homeRuns").asU64.getD 0 % 2 ^ 32
        era := (((team_data.idx "teamStats").idx "pitching").idx "era").asStr.getD "0.00" }
    let batters :=
      match (team_data.idx "batters").asArr with
      | some batters_array => batters_array.filterMap (extract_batter team_data)
      | none => []
    let pitchers :=
      match (team_data.idx "pitchers").asArr with
      | some pitchers_array => pitchers_array.filterMap (extract_pitcher team_data)
      | none => []
    .ok
      { team_name := team_name
        batting := batting
        pitching := pitching
        batters := batters
        pitchers := pitchers }

/-- Embedding of the normalizing tail of MlbApi::try_linescore_endpoint
(src/mlb.rs lines 1061-1149), over the two already-fetched JSON bodies:
the linescore teams object and both its sides are required; team identity
comes from the boxscore body; the status is hard-coded Final; innings are
renumbered from one in array order. -/
def try_linescore_endpoint (game_id : Nat) (linescore_data boxscore_data : Json) :
    Except String GameInnings :=
  match linescore_data.get "teams" with
  | none => .error "Missing teams data in linescore"
  | some teams =>
    match teams.get "away" with
    | none => .error "Missing away team data in linescore"
    | some away =>
      match teams.get "home" with
      | none => .error "Missing home team data in linescore"
      | some home =>
        let home_team : Team :=
          { id :=
              ((((boxscore_data.idx "teams").idx "home").idx "team").idx "id").asU64.getD 0
                % 2 ^ 32
            name := ((((boxscore_data.idx "teams").idx "home").idx "team").idx "name").asStr.getD ""
            team_code := none
            file_code := none
            team_name := none
            location_name := none
            short_name := none
            abbreviation := none
            franchise_name := none
            club_name := none
            first_year_of_play := none
            active := none
            venue := none
            league := none
            division := none }
        let away_team : Team :=
          { id :=
              ((((boxscore_data.idx "teams").idx "away").idx "team").idx "id").asU64.getD 0
                % 2 ^ 32
            name := ((((boxscore_data.idx "teams").idx "away").idx "team").idx "name").asStr.getD ""
            team_code := none
            file_code := none
            team_name := none
            location_name := none
            short_name := none
            abbreviation := none
            franchise_name := none
            club_name := none
            first_year_of_play := none
            active := none
            venue := none
            league := none
            division := none }
        let status := GameState.Final
        let innings : List InningData :=
          match (linescore_data.get "innings").bind Json.asArr with
          | some innings_array =>
            innings_array.enum.map (fun p =>
              { inning := (p.1 + 1) % 2 ^ 32
                home := ((p.2.idx "home").idx "runs").asU64.map (fun r => r % 2 ^ 32)
                away := ((p.2.idx "away").idx "runs").asU64.map (fun r => r % 2 ^ 32) })
          | none => []
        .ok
          { game_pk := game_id
            game_date := ((linescore_data.get "gameDate").bind Json.asStr).getD ""
            status := status
            home_team := home_team
            away_team := away_team
            innings := innings
            home_runs := (home.idx "runs").asU64.map (fun r => r % 2 ^ 32)
            away_runs := (away.idx "runs").asU64.map (fun r => r % 2 ^ 32) }

/-! ### src/mlb.rs: the inning-breakdown fallback resolver

MlbApi::get_game_innings awaits its three candidates strictly in order,
each inside the error branch of the previous one.  The embedding takes
the three candidate outcomes as arguments; a companion function records,
straight off the same nesting structure, which candidates the code
awaits.
-/

/-- Embedding of MlbApi::get_game_innings (src/mlb.rs lines 887-911):
first success wins; when all three candidates fail, one aggregated error
lists every candidate label with its own message, in candidate order. -/
def get_game_innings (feed_live linescore playbyplay : Except String GameInnings) :
    Except String GameInnings :=
  match feed_live with
  | .ok innings => .ok innings
  | .error feed_live_error =>
    match linescore with
    | .ok innings => .ok innings
    | .error linescore_error =>
      match playbyplay with
      | .ok innings => .ok innings
      | .error playbyplay_error =>
        .error
          ("Could not retrieve inning data from any endpoint. Errors: feed/live: "
            ++ feed_live_error ++ ", linescore: " ++ linescore_error ++ ", playByPlay: "
            ++ playbyplay_error)

/-- The candidates MlbApi::get_game_innings awaits, in order: read off
the nesting of the source, a later candidate is awaited exactly when
every earlier one returned an error, and no candidate is awaited twice. -/
def get_game_innings_attempts (feed_live linescore : Except String GameInnings) : List String :=
  match feed_live with
  | .ok _ => ["feed/live"]
  | .error _ =>
    match linescore with
    | .ok _ => ["feed/live", "linescore"]
    | .error _ => ["feed/live", "linescore", "playByPlay"]

/-! ### Concrete documents used by the witnesses -/

/-- A minimal boxscore-style team object carrying only the required name. -/
def demoTeamJson : Json :=
  .obj [("team", .obj [("name", .str "Seattle Mariners")])]

/-- A game document with an away side that has no runs field. -/
def demoGameJson : Json :=
  .obj [("away", .obj [("id", .num 136), ("name", .str "Seattle Mariners")])]

/-- A minimal linescore body: both sides present, nothing else. -/
def demoLinescoreJson : Json :=
  .obj [("teams", .obj [("away", .obj []), ("home", .obj [])])]

/-- An empty boxscore body. -/
def demoBoxscoreJson : Json := .obj []

/-- A team about which nothing is known, as the linescore candidate
produces from an empty boxscore body. -/
def unknownTeam : Team :=
  { id := 0
    name := ""
    team_code := none
    file_code := none
    team_name := none
    location_name := none
    short_name := none
    abbreviation := none
    franchise_name := none
    club_name := none
    first_year_of_play := none
    active := none
    venue := none
    league := none
    division := none }

/-- The breakdown the linescore candidate produces for the demo bodies. -/
def demoInnings : GameInnings :=
  { game_pk := 1
    game_date := ""
    status := .Final
    home_team := unknownTeam
    away_team := unknownTeam
    innings := []
    home_runs := none
    away_runs := none }

/-! ### Supporting lemmas about decimal digit strings -/

theorem digitVal_digitChar : ∀ d, d < 10 → digitVal (digitChar d) = some d := by decide

theorem digitChar_ne_dot : ∀ d, d < 10 → digitChar d ≠ '.' := by decide

theorem digitChar_ne_plus : ∀ d, d < 10 → digitChar d ≠ '+' := by decide

theorem parseDigitsAux_append (xs ys : List Char) (acc : Nat) :
    parseDigitsAux (xs ++ ys) acc =
      (parseDigitsAux xs acc).bind (fun v => parseDigitsAux ys v) := by
  induction xs generalizing acc with
  | nil => simp [parseDigitsAux]
  | cons c cs ih =>
    simp only [List.cons_append, parseDigitsAux]
    cases h : digitVal c with
    | none => simp
    | some d => simp [ih]

theorem natDigitsAux_ne_nil (fuel n : Nat) (h : 0 < fuel) : natDigitsAux fuel n ≠ [] := by
  cases fuel with
  | zero => omega
  | succ f =>
    simp only [natDigitsAux]
    split <;> simp

theorem natDigitsAux_mem (fuel : Nat) :
    ∀ n c, c ∈ natDigitsAux fuel n → ∃ d, d < 10 ∧ c = digitChar d := by
  induction fuel with
  | zero => intro n c h; simp [natDigitsAux] at h
  | succ f ih =>
    intro n c h
    simp only [natDigitsAux] at h
    split at h
    · rename_i hn
      simp only [List.mem_singleton] at h
      exact ⟨n, hn, h⟩
    · rcases List.mem_cons.mp h with h | h
      · exact ⟨n % 10, Nat.mod_lt _ (by omega), h⟩
      · exact ih _ _ h

theorem natDigitsAux_parse (fuel : Nat) :
    ∀ n, n < fuel → ∀ acc,
      parseDigitsAux ((natDigitsAux fuel n).reverse) acc =
        some (acc * 10 ^ (natDigitsAux fuel n).length + n) := by
  induction fuel with
  | zero => intro n h; omega
  | succ f ih =>
    intro n hn acc
    simp only [natDigitsAux]
    split
    · rename_i h10
      simp [parseDigitsAux, digitVal_digitChar n h10]
    · rename_i h10
      push_neg at h10
      have hdiv : n / 10 < f := by
        have := Nat.div_lt_self (by omega : 0 < n) (by omega : 1 < 10)
        omega
      rw [List.reverse_cons, parseDigitsAux_append, ih (n / 10) hdiv acc]
      simp only [Option.bind_eq_bind, Option.some_bind, parseDigitsAux,
        digitVal_digitChar (n % 10) (Nat.mod_lt _ (by omega)), Option.some.injEq,
        List.length_cons]
      rw [pow_succ, ← Nat.mul_assoc]
      omega

theorem parseDigits_natDigits (n : Nat) : parseDigits (natDigits n) = some n := by
  have hne : natDigits n ≠ [] := by
    simp only [natDigits, ne_eq, List.reverse_eq_nil_iff]
    exact natDigitsAux_ne_nil (n + 1) n (by omega)
  have hval := natDigitsAux_parse (n + 1) n (by omega) 0
  cases h : natDigits n with
  | nil => exact absurd h hne
  | cons c cs =>
    rw [show (natDigitsAux (n + 1) n).reverse = natDigits n from rfl, h] at hval
    simpa [parseDigits] using hval

theorem natDigits_mem (n : Nat) (c : Char) (h : c ∈ natDigits n) :
    ∃ d, d < 10 ∧ c = digitChar d := by
  rw [natDigits, List.mem_reverse] at h
  exact natDigitsAux_mem (n + 1) n c h

theorem natDigits_not_dot (n : Nat) : '.' ∉ natDigits n := by
  intro h
  obtain ⟨d, hd, hc⟩ := natDigits_mem n '.' h
  exact digitChar_ne_dot d hd hc.symm

theorem natDigits_ne_nil (n : Nat) : natDigits n ≠ [] := by
  simp only [natDigits, ne_eq, List.reverse_eq_nil_iff]
  exact natDigitsAux_ne_nil (n + 1) n (by omega)

theorem stripPlus_natDigits (n : Nat) : stripPlus (natDigits n) = natDigits n := by
  cases hd : natDigits n with
  | nil => rfl
  | cons c cs =>
    have hc : c ∈ natDigits n := by rw [hd]; exact List.mem_cons_self c cs
    obtain ⟨d, hd10, hcd⟩ := natDigits_mem n c hc
    have hplus : c ≠ '+' := by rw [hcd]; exact digitChar_ne_plus d hd10
    simp [stripPlus, hplus]

theorem parseU32_natDigits (n : Nat) (h : n < 2 ^ 32) : parseU32 (natDigits n) = some n := by
  unfold parseU32
  rw [stripPlus_natDigits, parseDigits_natDigits n]
  simp only [Option.some_bind]
  rw [if_pos h]

theorem parseU32_lt (cs : List Char) (v : Nat) (h : parseU32 cs = some v) : v < 2 ^ 32 := by
  unfold parseU32 at h
  cases hp : parseDigits (stripPlus cs) with
  | none => rw [hp] at h; exact Option.noConfusion h
  | some w =>
    rw [hp] at h
    simp only [Option.some_bind] at h
    split at h
    · rename_i hw
      injection h with h
      omega
    · exact Option.noConfusion h

theorem parseF32orZero_eq (cs : List Char) (v : Nat) (h : parseU32 cs = some v) :
    parseF32orZero cs = (v : ℚ) := by
  unfold parseU32 at h
  cases cs with
  | nil => simp [stripPlus, parseDigits] at h
  | cons c rest =>
    by_cases hplus : c = '+'
    · subst hplus
      rw [show stripPlus ('+' :: rest) = rest from by simp [stripPlus]] at h
      cases hp : parseDigits rest with
      | none => rw [hp] at h; exact Option.noConfusion h
      | some w =>
        rw [hp] at h
        simp only [Option.some_bind] at h
        split at h
        · injection h with h
          simp [parseF32orZero, hp, h]
        · exact Option.noConfusion h
    · rw [show stripPlus (c :: rest) = c :: rest from by simp [stripPlus, hplus]] at h
      have hminus : c ≠ '-' := by
        intro hm
        subst hm
        simp [parseDigits, parseDigitsAux, digitVal] at h
      cases hp : parseDigits (c :: rest) with
      | none => rw [hp] at h; exact Option.noConfusion h
      | some w =>
        rw [hp] at h
        simp only [Option.some_bind] at h
        split at h
        · injection h with h
          simp [parseF32orZero, hplus, hminus, hp, h]
        · exact Option.noConfusion h

/-! ### Supporting lemmas about the dot splitter -/

theorem splitDots_ne_nil (l : List Char) : splitDots l ≠ [] := by
  cases l with
  | nil => simp [splitDots]
  | cons c rest =>
    simp only [splitDots]
    split
    · simp
    · split <;> simp

theorem splitDots_of_not_mem (l : List Char) (h : '.' ∉ l) : splitDots l = [l] := by
  induction l with
  | nil => rfl
  | cons c rest ih =>
    have hc : c ≠ '.' := fun hc => h (hc ▸ List.mem_cons_self c rest)
    have hrest : '.' ∉ rest := fun hr => h (List.mem_cons_of_mem c hr)
    simp only [splitDots, if_neg hc, ih hrest]

theorem splitDots_append (a b : List Char) (h : '.' ∉ a) :
    splitDots (a ++ '.' :: b) = a :: splitDots b := by
  induction a with
  | nil => simp [splitDots]
  | cons c rest ih =>
    have hc : c ≠ '.' := fun hc => h (hc ▸ List.mem_cons_self c rest)
    have hrest : '.' ∉ rest := fun hr => h (List.mem_cons_of_mem c hr)
    simp only [List.cons_append, splitDots, if_neg hc, List.append_eq]
    rw [ih hrest]

theorem splitDots_singleton (l : List Char) :
    ∀ p, splitDots l = [p] → p = l := by
  induction l with
  | nil =>
    intro p h
    simp only [splitDots, List.cons.injEq, and_true] at h
    exact h.symm
  | cons c rest ih =>
    intro p h
    simp only [splitDots] at h
    split at h
    · cases h' : splitDots rest with
      | nil => exact absurd h' (splitDots_ne_nil rest)
      | cons q qs =>
        rw [h'] at h
        simp at h
    · rename_i hc
      cases h' : splitDots rest with
      | nil => exact absurd h' (splitDots_ne_nil rest)
      | cons q qs =>
        rw [h'] at h
        simp only [List.cons.injEq] at h
        obtain ⟨hp, hqs⟩ := h
        rw [hqs] at h'
        have hq : q = rest := ih q h'
        rw [← hp, hq]

/-! ### The claims -/

/-- C1: the inning-breakdown fallback short-circuits: whichever is the
first candidate to succeed (feed/live, else linescore, else playByPlay)
supplies the returned GameInnings value unchanged, no candidate after it
is attempted, and no candidate is ever attempted twice. -/
theorem claim_C1_fallback_short_circuit :
    (∀ innings c2 c3,
      get_game_innings (.ok innings) c2 c3 = .ok innings ∧
      get_game_innings_attempts (.ok innings) c2 = ["feed/live"]) ∧
    (∀ e1 innings c3,
      get_game_innings (.error e1) (.ok innings) c3 = .ok innings ∧
      get_game_innings_attempts (.error e1) (.ok innings) = ["feed/live", "linescore"]) ∧
    (∀ e1 e2 innings,
      get_game_innings (.error e1) (.error e2) (.ok innings) = .ok innings ∧
      get_game_innings_attempts (.error e1) (.error e2) =
        ["feed/live", "linescore", "playByPlay"]) ∧
    (∀ c1 c2, (get_game_innings_attempts c1 c2).Nodup) := by
  refine ⟨fun i c2 c3 => ⟨rfl, rfl⟩, fun e1 i c3 => ⟨rfl, rfl⟩, fun e1 e2 i => ⟨rfl, rfl⟩, ?_⟩
  intro c1 c2
  cases c1 <;> cases c2 <;> simp only [get_game_innings_attempts] <;> decide

/-- C2: when all three candidates fail, get_game_innings returns one
aggregated error whose message carries each candidate's label followed by
that candidate's own failure message, in candidate order: feed/live
first, linescore second, playByPlay third. -/
theorem claim_C2_aggregated_error (e1 e2 e3 : String) :
    get_game_innings (.error e1) (.error e2) (.error e3) =
      .error ("Could not retrieve inning data from any endpoint. Errors: feed/live: "
        ++ e1 ++ ", linescore: " ++ e2 ++ ", playByPlay: " ++ e3) ∧
    ("Could not retrieve inning data from any endpoint. Errors: feed/live: "
        ++ e1 ++ ", linescore: " ++ e2 ++ ", playByPlay: " ++ e3).data =
      ("Could not retrieve inning data from any endpoint. Errors: ").data
        ++ ("feed/live: ").data ++ e1.data ++ (", ").data ++ ("linescore: ").data
        ++ e2.data ++ (", ").data ++ ("playByPlay: ").data ++ e3.data := by
  refine ⟨rfl, ?_⟩
  simp only [String.data_append]
  simp [List.append_assoc]

/-- C3: the provider-status mapping is total: each of the six recognized
abstractGameState strings maps to its documented canonical variant, with
Preview mapping to Scheduled, and every other string, the empty string
included, maps to Unknown rather than failing. -/
theorem claim_C3_map_status_total :
    map_status "Final" = GameState.Final ∧
    map_status "Live" = GameState.Live ∧
    map_status "Preview" = GameState.Scheduled ∧
    map_status "Postponed" = GameState.Postponed ∧
    map_status "Cancelled" = GameState.Cancelled ∧
    map_status "Suspended" = GameState.Suspended ∧
    map_status "" = GameState.Unknown ∧
    (∀ s, s ≠ "Final" → s ≠ "Live" → s ≠ "Preview" → s ≠ "Postponed" →
      s ≠ "Cancelled" → s ≠ "Suspended" → map_status s = GameState.Unknown) := by
  refine ⟨rfl, rfl, rfl, rfl, rfl, rfl, rfl, ?_⟩
  intro s h1 h2 h3 h4 h5 h6
  unfold map_status
  split <;> simp_all

/-- Witness for C3: an unrecognized status string maps to Unknown. -/
theorem claim_C3_witness : map_status "In Progress" = GameState.Unknown :=
  claim_C3_map_status_total.2.2.2.2.2.2.2 "In Progress" (by decide) (by decide) (by decide)
    (by decide) (by decide) (by decide)

/-- C9: winner designation is mutually exclusive: determine_winner never
designates both sides, designates exactly one side when both scores are
present and unequal, designates no side on ties or absent scores, and a
game with away score 3 and home score 5 designates the home side. -/
theorem claim_C9_determine_winner_exclusive :
    (∀ a h, ¬ (determine_winner a h = some 0 ∧ determine_winner a h = some 1)) ∧
    (∀ away home, away ≠ home →
      ((determine_winner (some away) (some home) = some 0 ↔ home < away) ∧
       (determine_winner (some away) (some home) = some 1 ↔ away < home))) ∧
    (∀ n, determine_winner (some n) (some n) = none) ∧
    (∀ h, determine_winner none h = none) ∧
    (∀ a, determine_winner a none = none) ∧
    determine_winner (some 3) (some 5) = some 1 := by
  refine ⟨?_, ?_, ?_, ?_, ?_, rfl⟩
  · intro a h hc
    rw [hc.1] at hc
    exact Option.noConfusion hc.2 (fun h01 => Nat.noConfusion h01)
  · intro away home hne
    simp only [determine_winner]
    rcases Nat.lt_trichotomy away home with hlt | heq | hgt
    · rw [if_neg (by omega : ¬ home < away), if_pos hlt]
      constructor <;> constructor <;> intro h' <;>
        first | rfl | omega | simp at h'
    · exact absurd heq hne
    · rw [if_pos hgt]
      constructor <;> constructor <;> intro h' <;>
        first | rfl | omega | simp at h'
  · intro n
    simp [determine_winner]
  · intro h
    cases h <;> rfl
  · intro a
    cases a <;> rfl

/-- Witness for C9: for scores 3 and 5 the home side alone wins. -/
theorem claim_C9_witness : determine_winner (some 3) (some 5) = some 1 :=
  ((claim_C9_determine_winner_exclusive.2.1 3 5 (by omega)).2).mpr (by omega)

/-- C4: fields the normalizers treat as required produce structural
errors when absent, never defaults: a missing team object in
extract_game_team, a missing team name in extract_team_stats, and a
missing teams object or side in the linescore candidate each yield an
error naming the missing piece. -/
theorem claim_C4_required_fields :
    (∀ data team_type, data.get team_type = none →
      extract_game_team data team_type = .error ("Missing " ++ team_type ++ " team data")) ∧
    (∀ team_data,
      ((team_data.get "team").bind (fun t => t.get "name")).bind Json.asStr = none →
      extract_team_stats team_data = .error "Missing team name") ∧
    (∀ game_id linescore_data boxscore_data, linescore_data.get "teams" = none →
      try_linescore_endpoint game_id linescore_data boxscore_data =
        .error "Missing teams data in linescore") ∧
    (∀ game_id linescore_data boxscore_data teams,
      linescore_data.get "teams" = some teams → teams.get "away" = none →
      try_linescore_endpoint game_id linescore_data boxscore_data =
        .error "Missing away team data in linescore") ∧
    (∀ game_id linescore_data boxscore_data teams away,
      linescore_data.get "teams" = some teams → teams.get "away" = some away →
      teams.get "home" = none →
      try_linescore_endpoint game_id linescore_data boxscore_data =
        .error "Missing home team data in linescore") := by
  refine ⟨?_, ?_, ?_, ?_, ?_⟩
  · intro data t h
    unfold extract_game_team
    rw [h]
  · intro td h
    unfold extract_team_stats
    rw [h]
  · intro gid ls bs h
    unfold try_linescore_endpoint
    rw [h]
  · intro gid ls bs teams h1 h2
    unfold try_linescore_endpoint
    simp only [h1, h2]
  · intro gid ls bs teams away h1 h2 h3
    unfold try_linescore_endpoint
    simp only [h1, h2, h3]

/-- Witness for C4: a document with no away side makes extract_game_team
report the missing side. -/
theorem claim_C4_witness :
    extract_game_team (Json.obj []) "away" = .error ("Missing " ++ "away" ++ " team data") :=
  claim_C4_required_fields.1 (Json.obj []) "away" rfl

/-- C5: missing optional fields get their documented defaults: a missing
batting average string defaults to ".000" and a missing ERA string to
"0.00", missing numeric counting stats default to zero, and a missing
score stays none rather than zero. -/
theorem claim_C5_optional_defaults :
    (∀ team_data name,
      ((team_data.get "team").bind (fun t => t.get "name")).bind Json.asStr = some name →
      ((((team_data.idx "teamStats").idx "batting").idx "avg").asStr = none →
        (extract_team_stats team_data).map (fun ts => ts.batting.avg) = .ok ".000") ∧
      ((((team_data.idx "teamStats").idx "pitching").idx "era").asStr = none →
        (extract_team_stats team_data).map (fun ts => ts.pitching.era) = .ok "0.00") ∧
      ((((team_data.idx "teamStats").idx "batting").idx "runs").asU64 = none →
        (extract_team_stats team_data).map (fun ts => ts.batting.runs) = .ok 0) ∧
      ((((team_data.idx "teamStats").idx "batting").idx "hits").asU64 = none →
        (extract_team_stats team_data).map (fun ts => ts.batting.hits) = .ok 0)) ∧
    (∀ data team_type team_data, data.get team_type = some team_data →
      (team_data.idx "runs").asU64 = none →
      (extract_game_team data team_type).map (fun gt => gt.score) = .ok none) := by
  constructor
  · intro td nm hnm
    unfold extract_team_stats
    rw [hnm]
    refine ⟨fun h => ?_, fun h => ?_, fun h => ?_, fun h => ?_⟩ <;>
      simp [Except.map, h]
  · intro data tt td h1 h2
    unfold extract_game_team
    rw [h1]
    simp [Except.map, h2]

/-- Witness for C5: a team object carrying only its name gets the
default average, and an away side without a runs field keeps score none. -/
theorem claim_C5_witness :
    (extract_team_stats demoTeamJson).map (fun ts => ts.batting.avg) = .ok ".000" ∧
    (extract_game_team demoGameJson "away").map (fun gt => gt.score) = .ok none := by
  constructor
  · exact (claim_C5_optional_defaults.1 demoTeamJson "Seattle Mariners" rfl).1 rfl
  · exact claim_C5_optional_defaults.2 demoGameJson "away"
      (.obj [("id", .num 136), ("name", .str "Seattle Mariners")]) rfl rfl

/-- C6: any inning breakdown the linescore candidate produces carries
status Final, whatever the upstream bodies contain, and the resolver
passes that value through unchanged when feed/live has failed. -/
theorem claim_C6_linescore_final :
    (∀ game_id linescore_data boxscore_data innings,
      try_linescore_endpoint game_id linescore_data boxscore_data = .ok innings →
      innings.status = GameState.Final) ∧
    (∀ feed_live_error game_id linescore_data boxscore_data playbyplay innings,
      try_linescore_endpoint game_id linescore_data boxscore_data = .ok innings →
      get_game_innings (.error feed_live_error)
          (try_linescore_endpoint game_id linescore_data boxscore_data) playbyplay =
        .ok innings ∧ innings.status = GameState.Final) := by
  have hmain : ∀ game_id linescore_data boxscore_data innings,
      try_linescore_endpoint game_id linescore_data boxscore_data = .ok innings →
      innings.status = GameState.Final := by
    intro gid ls bs gi h
    unfold try_linescore_endpoint at h
    split at h
    · exact Except.noConfusion h
    · split at h
      · exact Except.noConfusion h
      · split at h
        · exact Except.noConfusion h
        · injection h with h
          rw [← h]
  refine ⟨hmain, ?_⟩
  intro e1 gid ls bs pbp gi h
  refine ⟨?_, hmain gid ls bs gi h⟩
  rw [h]
  rfl

/-- Witness for C6: the linescore candidate on the demo bodies yields
demoInnings, whose status the theorem shows to be Final. -/
theorem claim_C6_witness :
    try_linescore_endpoint 1 demoLinescoreJson demoBoxscoreJson = .ok demoInnings ∧
    demoInnings.status = GameState.Final := by
  have h : try_linescore_endpoint 1 demoLinescoreJson demoBoxscoreJson = .ok demoInnings := by
    decide
  exact ⟨h, claim_C6_linescore_final.1 1 demoLinescoreJson demoBoxscoreJson demoInnings h⟩

/-- Display output of an innings-pitched value parses back to the same
(complete, partial) pair. -/
theorem new_display (complete part : Nat) (hc : complete < 2 ^ 32) (hp : part < 3) :
    InningsPitched.new (InningsPitched.display ⟨complete, part⟩) = .ok ⟨complete, part⟩ := by
  by_cases h0 : part = 0
  · subst h0
    unfold InningsPitched.display
    rw [if_pos rfl]
    unfold InningsPitched.new
    rw [show (String.mk (natDigits complete ++ ['.', '0'])).data
        = natDigits complete ++ '.' :: ['0'] from rfl]
    rw [splitDots_append (natDigits complete) ['0'] (natDigits_not_dot complete)]
    rw [show splitDots ['0'] = [['0']] from by decide]
    simp only [parseU32_natDigits complete hc]
    rw [show parseU32 ['0'] = some 0 from by decide]
    rfl
  · unfold InningsPitched.display
    rw [if_neg h0]
    unfold InningsPitched.new
    rw [show (String.mk (natDigits complete ++ '.' :: natDigits part)).data
        = natDigits complete ++ '.' :: natDigits part from rfl]
    rw [splitDots_append (natDigits complete) (natDigits part) (natDigits_not_dot complete)]
    rw [splitDots_of_not_mem (natDigits part) (natDigits_not_dot part)]
    simp only [parseU32_natDigits complete hc,
      parseU32_natDigits part (by omega : part < 2 ^ 32)]
    rw [if_neg (by omega : ¬ 3 ≤ part)]

/-- C7: the innings-pitched string "6.2" parses to complete 6 and
partial 2, converts to the rational twenty thirds, within one thousandth
of 6.667, and re-displays as "6.2"; "6.0" re-displays as "6.0"; and for
every accepted string with an explicit partial digit, displaying the
parsed value yields a string that parses back to the same pair. -/
theorem claim_C7_innings_roundtrip :
    InningsPitched.new "6.2" = .ok ⟨6, 2⟩ ∧
    (InningsPitched.mk 6 2).asFloat = 20 / 3 ∧
    |(InningsPitched.mk 6 2).asFloat - 6667 / 1000| < 1 / 1000 ∧
    (InningsPitched.mk 6 2).display = "6.2" ∧
    InningsPitched.new "6.0" = .ok ⟨6, 0⟩ ∧
    (InningsPitched.mk 6 0).display = "6.0" ∧
    (∀ s ip, InningsPitched.new s = .ok ip → (splitDots s.data).length = 2 →
      InningsPitched.new ip.display = .ok ip) := by
  refine ⟨by decide, ?_, ?_, by decide, by decide, by decide, ?_⟩
  · unfold InningsPitched.asFloat
    norm_num
  · rw [show (InningsPitched.mk 6 2).asFloat = 20 / 3 from by
      unfold InningsPitched.asFloat; norm_num]
    rw [show (20 : ℚ) / 3 - 6667 / 1000 = -(1 / 3000) from by norm_num]
    rw [abs_neg, abs_of_pos (by norm_num)]
    norm_num
  · intro s ip h hlen
    unfold InningsPitched.new at h
    split at h
    · rename_i p0 heq
      rw [heq] at hlen
      simp at hlen
    · rename_i p0 p1 heq
      split at h
      · exact Except.noConfusion h
      · rename_i c hc0
        split at h
        · exact Except.noConfusion h
        · rename_i p hp1
          split at h
          · exact Except.noConfusion h
          · rename_i hp3
            injection h with h
            rw [← h]
            exact new_display c p (parseU32_lt p0 c hc0) (by omega)
    · exact Except.noConfusion h

/-- Witness for C7: displaying the parse of "6.2" parses back to the
same pair. -/
theorem claim_C7_witness :
    InningsPitched.new (InningsPitched.display ⟨6, 2⟩) = .ok ⟨6, 2⟩ :=
  claim_C7_innings_roundtrip.2.2.2.2.2.2 "6.2" ⟨6, 2⟩ (by decide) (by decide)

/-- Any formatted average is a dot followed by at least three digits. -/
theorem average_format_length (a : Average) : 4 ≤ (Average.format a).length := by
  unfold Average.format format03
  rw [String.length_mk]
  simp only [List.length_cons, List.length_append, List.length_replicate]
  omega

/-- C8 counterexample: calculate_average returns none for hits 5 and
at-bats 3 even though at-bats is nonzero, because Average::new rejects
ratios above one; and a unit average formats as ".1000", four digits, so
the formatted string is not always three digits. -/
theorem counterexample_C8 :
    calculate_average 5 3 = none ∧ (3 : Nat) ≠ 0 ∧
    (calculate_average 1 1).map Average.format = some ".1000" := by
  refine ⟨?_, by decide, ?_⟩
  · unfold calculate_average Average.new
    rw [if_pos (by norm_num)]
    rw [if_pos (by norm_num :
      ((5 : Nat) : ℚ) / ((3 : Nat) : ℚ) < 0 ∨ 1 < ((5 : Nat) : ℚ) / ((3 : Nat) : ℚ))]
    rfl
  · have h1 : calculate_average 1 1 = some ⟨1⟩ := by
      unfold calculate_average Average.new
      rw [if_pos (by norm_num)]
      rw [if_neg (by norm_num :
        ¬ (((1 : Nat) : ℚ) / ((1 : Nat) : ℚ) < 0 ∨ 1 < ((1 : Nat) : ℚ) / ((1 : Nat) : ℚ)))]
      rw [show ((1 : Nat) : ℚ) / ((1 : Nat) : ℚ) = 1 from by norm_num]
      rfl
    rw [h1, Option.map_some']
    have h2 : Average.format ⟨1⟩ = ".1000" := by
      unfold Average.format
      have hfl : roundHalfAway ((1 : ℚ) * 1000) = 1000 := by
        unfold roundHalfAway
        norm_num
        rfl
      rw [hfl]
      decide
    rw [h2]

/-- C8 as amended: for hits and at-bats below 2 ^ 24 — the range on
which u32-to-f32 conversion is exact, so that the exact-Rat model
provably agrees with the program's f32 guard: for hits at most at-bats
the f32 quotient cannot exceed one (the next float above one is
1 + 2 ^ (-23), needing a true quotient above 1 + 2 ^ (-24)), and for
hits above at-bats the true quotient is at least 1 + 1 / at_bats,
strictly above the midpoint 1 + 2 ^ (-24) since at_bats < 2 ^ 24, so it
rounds above one — calculate_average returns none exactly when at-bats
is zero or hits exceed at-bats (the division is guarded, and the
Average range check rejects ratios above one); any returned value
formats as a dot followed by at least three digits; hits 100 over
at-bats 300 formats as ".333". -/
theorem claim_C8_average_guard :
    (∀ hits at_bats : Nat, hits < 2 ^ 24 → at_bats < 2 ^ 24 →
      (calculate_average hits at_bats = none ↔ at_bats = 0 ∨ at_bats < hits) ∧
      (∀ a, calculate_average hits at_bats = some a →
        4 ≤ (Average.format a).length)) ∧
    (calculate_average 100 300).map Average.format = some ".333" := by
  constructor
  · intro hits at_bats hhits hab24
    constructor
    · by_cases hab : at_bats = 0
      · subst hab
        simp [calculate_average]
      · have hpos : 0 < at_bats := Nat.pos_of_ne_zero hab
        have hb : (0 : ℚ) < (at_bats : ℚ) := by exact_mod_cast hpos
        have h0 : ¬ ((hits : ℚ) / (at_bats : ℚ) < 0) :=
          not_lt.mpr (div_nonneg (Nat.cast_nonneg hits) (Nat.cast_nonneg at_bats))
        unfold calculate_average Average.new
        rw [if_pos hpos]
        by_cases hgt : at_bats < hits
        · have h1 : 1 < (hits : ℚ) / (at_bats : ℚ) :=
            (one_lt_div hb).mpr (by exact_mod_cast hgt)
          rw [if_pos (Or.inr h1)]
          simp [Except.toOption, hab, hgt]
        · have h1 : ¬ 1 < (hits : ℚ) / (at_bats : ℚ) := by
            rw [not_lt]
            exact div_le_one_of_le₀ (by exact_mod_cast not_lt.mp hgt) (le_of_lt hb)
          rw [if_neg (not_or.mpr ⟨h0, h1⟩)]
          simp [Except.toOption, hab, hgt]
    · intro a ha
      exact average_format_length a
  · have h1 : calculate_average 100 300 = some ⟨1 / 3⟩ := by
      unfold calculate_average Average.new
      rw [if_pos (by norm_num)]
      rw [if_neg (by norm_num :
        ¬ (((100 : Nat) : ℚ) / ((300 : Nat) : ℚ) < 0
          ∨ 1 < ((100 : Nat) : ℚ) / ((300 : Nat) : ℚ)))]
      rw [show ((100 : Nat) : ℚ) / ((300 : Nat) : ℚ) = 1 / 3 from by norm_num]
      rfl
    rw [h1, Option.map_some']
    have h2 : Average.format ⟨1 / 3⟩ = ".333" := by
      unfold Average.format
      have hfl : roundHalfAway ((1 : ℚ) / 3 * 1000) = 333 := by
        unfold roundHalfAway
        norm_num
        rfl
      rw [hfl]
      decide
    rw [h2]

/-- Witness for C8: at-bats zero yields none. -/
theorem claim_C8_witness : calculate_average 7 0 = none :=
  (claim_C8_average_guard.1 7 0 (by norm_num) (by norm_num)).1.mpr (Or.inl rfl)

/-- C10: on every string InningsPitched::new accepts, the total parser
utils::parse_innings_pitched computes exactly the accepted value's
as_float; on unparsable input it returns zero instead of an error. -/
theorem claim_C10_parsers_agree :
    (∀ s ip, InningsPitched.new s = .ok ip →
      parse_innings_pitched s = ip.asFloat) ∧
    parse_innings_pitched "invalid" = 0 := by
  constructor
  · intro s ip h
    unfold InningsPitched.new at h
    unfold parse_innings_pitched
    split at h
    · rename_i p0 heq
      split at h
      · rename_i c hc0
        injection h with h
        have hps : p0 = s.data := splitDots_singleton s.data p0 heq
        rw [heq]
        show parseF32orZero s.data = ip.asFloat
        rw [← hps, parseF32orZero_eq p0 c hc0, ← h]
        unfold InningsPitched.asFloat
        norm_num
      · exact Except.noConfusion h
    · rename_i p0 p1 heq
      rw [heq]
      show parseF32orZero p0 + parseF32orZero p1 / 3 = ip.asFloat
      split at h
      · exact Except.noConfusion h
      · rename_i c hc0
        split at h
        · exact Except.noConfusion h
        · rename_i p hp1
          split at h
          · exact Except.noConfusion h
          · rename_i hp3
            injection h with h
            rw [← h]
            rw [parseF32orZero_eq p0 c hc0, parseF32orZero_eq p1 p hp1]
            unfold InningsPitched.asFloat
            rfl
    · exact Except.noConfusion h
  · have h : parse_innings_pitched "invalid" = ((0 : Nat) : ℚ) := rfl
    rw [h]
    norm_num

/-- Witness for C10: both parsers value "6.2" at six and two thirds. -/
theorem claim_C10_witness :
    parse_innings_pitched "6.2" = (InningsPitched.mk 6 2).asFloat :=
  claim_C10_parsers_agree.1 "6.2" ⟨6, 2⟩ (by decide)
